import Mathlib

/-!
Verification of the focus-calibration and session-scoring engine of the
focus-tracker application (`app.py`), shallowly embedded in Lean.

Modelling conventions:
* Pupil coordinates are Python ints, embedded as `ℤ`.  A coordinate pair as
  delivered by the gaze library is `None`, or a tuple whose components may be
  `None`; we embed it as `Option (Option ℤ × Option ℤ)`.
* Wall-clock timestamps are Python floats returned by `time()`; the engine only
  adds, subtracts and compares them, so they are embedded as `ℚ`.
  Python's `int()` truncation toward zero is `pyInt` below.
* The database is embedded as the list of stored rows, in query order.
-/

/-- A coordinate pair as produced by the gaze library: absent, or a pair of
possibly-absent integer components (`coords`, `(x, y)` in `app.py`). -/
abbrev Coords := Option (Option ℤ × Option ℤ)

/-- `EyeBoundary` from `app.py`: a per-eye axis-aligned box plus a
calibration flag. -/
structure EyeBoundary where
  min_x : ℤ
  max_x : ℤ
  min_y : ℤ
  max_y : ℤ
  calibrated : Bool
deriving DecidableEq

/-- `EyeBoundary.__init__` from `app.py`: sentinel minima of 1,000,000,
maxima of 0, uncalibrated. -/
def initEyeBoundary : EyeBoundary :=
  { min_x := 1000000, max_x := 0, min_y := 1000000, max_y := 0, calibrated := false }

/-- `EyeBoundary.adjust_coords` from `app.py`: ignore an absent pair, an absent
component, or the `(0, 0)` sentinel; otherwise expand the box to include the
point and set `calibrated` once the box has strictly positive width and
height. -/
def adjust_coords (eb : EyeBoundary) (coords : Coords) : EyeBoundary :=
  match coords with
  | none => eb
  | some (ox, oy) =>
    match ox, oy with
    | some x, some y =>
      if x = 0 ∧ y = 0 then eb
      else if max eb.max_x x > min eb.min_x x ∧ max eb.max_y y > min eb.min_y y then
        { min_x := min eb.min_x x, max_x := max eb.max_x x,
          min_y := min eb.min_y y, max_y := max eb.max_y y, calibrated := true }
      else
        { min_x := min eb.min_x x, max_x := max eb.max_x x,
          min_y := min eb.min_y y, max_y := max eb.max_y y, calibrated := eb.calibrated }
    | _, _ => eb

/-- `EyeBoundary.check_coords` from `app.py`: `true` means "outside".  Returns
`true` when uncalibrated or a coordinate is absent; otherwise tests the box
expanded by the fixed tolerance 5. -/
def check_coords (eb : EyeBoundary) (coords : Coords) : Bool :=
  if eb.calibrated = false then true
  else
    match coords with
    | none => true
    | some (ox, oy) =>
      match ox, oy with
      | some x, some y =>
        decide (x < eb.min_x - 5 ∨ x > eb.max_x + 5 ∨
                y < eb.min_y - 5 ∨ y > eb.max_y + 5)
      | _, _ => true

/-- `EyeBoundary.reset` from `app.py`: back to the sentinel state. -/
def EyeBoundary.reset (_ : EyeBoundary) : EyeBoundary := initEyeBoundary

/-- The calibration invariant: the flag agrees with the box being
non-degenerate. -/
def CalibInv (eb : EyeBoundary) : Prop :=
  eb.calibrated = decide (eb.min_x < eb.max_x ∧ eb.min_y < eb.max_y)

lemma calibInv_init : CalibInv initEyeBoundary := by
  unfold CalibInv
  decide

lemma calibInv_adjust {eb : EyeBoundary} (h : CalibInv eb) (c : Coords) :
    CalibInv (adjust_coords eb c) := by
  rcases c with _ | ⟨ox, oy⟩
  · exact h
  rcases ox with _ | x
  · exact h
  rcases oy with _ | y
  · exact h
  show CalibInv (if x = 0 ∧ y = 0 then eb
    else if max eb.max_x x > min eb.min_x x ∧ max eb.max_y y > min eb.min_y y then
      { min_x := min eb.min_x x, max_x := max eb.max_x x,
        min_y := min eb.min_y y, max_y := max eb.max_y y, calibrated := true }
    else
      { min_x := min eb.min_x x, max_x := max eb.max_x x,
        min_y := min eb.min_y y, max_y := max eb.max_y y, calibrated := eb.calibrated })
  by_cases hzero : x = 0 ∧ y = 0
  · rw [if_pos hzero]
    exact h
  rw [if_neg hzero]
  by_cases hpos : max eb.max_x x > min eb.min_x x ∧ max eb.max_y y > min eb.min_y y
  · rw [if_pos hpos]
    show true = decide (min eb.min_x x < max eb.max_x x ∧ min eb.min_y y < max eb.max_y y)
    symm
    rw [decide_eq_true_eq]
    exact hpos
  · rw [if_neg hpos]
    show eb.calibrated = decide (min eb.min_x x < max eb.max_x x ∧ min eb.min_y y < max eb.max_y y)
    have hold : ¬ (eb.min_x < eb.max_x ∧ eb.min_y < eb.max_y) := by
      intro hc
      apply hpos
      constructor
      · exact lt_of_le_of_lt (min_le_left _ _) (lt_of_lt_of_le hc.1 (le_max_left _ _))
      · exact lt_of_le_of_lt (min_le_left _ _) (lt_of_lt_of_le hc.2 (le_max_left _ _))
    have hcal : eb.calibrated = false := by
      rw [h, decide_eq_false_iff_not]
      exact hold
    rw [hcal]
    symm
    rw [decide_eq_false_iff_not]
    exact hpos

lemma calibInv_foldl (cs : List Coords) {eb : EyeBoundary} (h : CalibInv eb) :
    CalibInv (cs.foldl adjust_coords eb) := by
  induction cs generalizing eb with
  | nil => exact h
  | cons c cs ih => exact ih (calibInv_adjust h c)

/-- Reduction of `adjust_coords` on a fully-present pair. -/
lemma adjust_coords_some (eb : EyeBoundary) (x y : ℤ) :
    adjust_coords eb (some (some x, some y)) =
      if x = 0 ∧ y = 0 then eb
      else if max eb.max_x x > min eb.min_x x ∧ max eb.max_y y > min eb.min_y y then
        { min_x := min eb.min_x x, max_x := max eb.max_x x,
          min_y := min eb.min_y y, max_y := max eb.max_y y, calibrated := true }
      else
        { min_x := min eb.min_x x, max_x := max eb.max_x x,
          min_y := min eb.min_y y, max_y := max eb.max_y y, calibrated := eb.calibrated } := rfl

/-- Claim C1: feeding any sequence of coordinate pairs to `adjust_coords`
starting from a fresh `EyeBoundary`, the `calibrated` flag holds exactly when
the resulting box has strictly positive width and height
(`min_x < max_x` and `min_y < max_y`). -/
theorem calibrated_iff_nondegenerate (cs : List Coords) :
    (cs.foldl adjust_coords initEyeBoundary).calibrated =
      decide ((cs.foldl adjust_coords initEyeBoundary).min_x <
                (cs.foldl adjust_coords initEyeBoundary).max_x ∧
              (cs.foldl adjust_coords initEyeBoundary).min_y <
                (cs.foldl adjust_coords initEyeBoundary).max_y) :=
  calibInv_foldl cs calibInv_init

/-- Claim C2: `check_coords` reports "outside" (`true`) whenever the boundary
is uncalibrated, the pair is absent, or a component is absent; on a calibrated
boundary with both components present it reports "outside" exactly when the
point lies outside the box expanded by tolerance 5 on every side.  For the
calibrated box `[100,200] x [100,200]`: `(105,195)` is inside, `(94,150)` and
`(206,150)` are outside. -/
theorem check_coords_spec :
    (∀ (mx Mx my My : ℤ) (c : Coords),
        check_coords ⟨mx, Mx, my, My, false⟩ c = true) ∧
    (∀ eb : EyeBoundary, check_coords eb none = true) ∧
    (∀ (eb : EyeBoundary) (oy : Option ℤ), check_coords eb (some (none, oy)) = true) ∧
    (∀ (eb : EyeBoundary) (ox : Option ℤ), check_coords eb (some (ox, none)) = true) ∧
    (∀ (mx Mx my My x y : ℤ),
        check_coords ⟨mx, Mx, my, My, true⟩ (some (some x, some y)) =
          decide (x < mx - 5 ∨ x > Mx + 5 ∨ y < my - 5 ∨ y > My + 5)) ∧
    check_coords ⟨100, 200, 100, 200, true⟩ (some (some 105, some 195)) = false ∧
    check_coords ⟨100, 200, 100, 200, true⟩ (some (some 94, some 150)) = true ∧
    check_coords ⟨100, 200, 100, 200, true⟩ (some (some 206, some 150)) = true := by
  refine ⟨fun mx Mx my My c => rfl, ?_, ?_, ?_, fun mx Mx my My x y => ?_, ?_, ?_, ?_⟩
  · intro eb
    unfold check_coords
    split
    · rfl
    · rfl
  · intro eb oy
    unfold check_coords
    split
    · rfl
    · rcases oy with _ | y <;> rfl
  · intro eb ox
    unfold check_coords
    split
    · rfl
    · rcases ox with _ | x <;> rfl
  · rfl
  · decide
  · decide
  · decide

/-- Per-frame focus decision of the session branch of
`MainWindow.tracking_loop` in `app.py`: unfocused when pupils are not located,
otherwise focused unless both eyes are outside their boundaries. -/
def frame_focus (ebL ebR : EyeBoundary) (pupils_located : Bool)
    (left right : Coords) : Bool :=
  if pupils_located then !(check_coords ebL left && check_coords ebR right)
  else false

/-- Claim C3: in the session state, the per-frame focus state is `false` when
pupils are not located; when they are located it is `true` unless both the
left-eye and the right-eye coordinates fail their boundary's containment
check. -/
theorem frame_focus_spec (ebL ebR : EyeBoundary) (l r : Coords) :
    frame_focus ebL ebR false l r = false ∧
    (frame_focus ebL ebR true l r = true ↔
      ¬ (check_coords ebL l = true ∧ check_coords ebR r = true)) := by
  constructor
  · rfl
  · show (!(check_coords ebL l && check_coords ebR r)) = true ↔
      ¬ (check_coords ebL l = true ∧ check_coords ebR r = true)
    cases check_coords ebL l <;> cases check_coords ebR r <;> simp

/-- Claim C9: from the sentinel initial state, the first coordinate pair
accepted by `adjust_coords` (components present, not the `(0,0)` sentinel,
plausible: between 0 and the sentinel 1,000,000) yields a degenerate zero-area
box, and the boundary is still uncalibrated. -/
theorem first_observation_degenerate (x y : ℤ) (hx0 : 0 ≤ x) (hx1 : x ≤ 1000000)
    (hy0 : 0 ≤ y) (hy1 : y ≤ 1000000) (hxy : ¬ (x = 0 ∧ y = 0)) :
    (adjust_coords initEyeBoundary (some (some x, some y))).min_x =
      (adjust_coords initEyeBoundary (some (some x, some y))).max_x ∧
    (adjust_coords initEyeBoundary (some (some x, some y))).min_y =
      (adjust_coords initEyeBoundary (some (some x, some y))).max_y ∧
    (adjust_coords initEyeBoundary (some (some x, some y))).calibrated = false := by
  have hminx : min (1000000 : ℤ) x = x := min_eq_right hx1
  have hmaxx : max (0 : ℤ) x = x := max_eq_right hx0
  have hminy : min (1000000 : ℤ) y = y := min_eq_right hy1
  have hmaxy : max (0 : ℤ) y = y := max_eq_right hy0
  have hcond : ¬ (max (0 : ℤ) x > min (1000000 : ℤ) x ∧
      max (0 : ℤ) y > min (1000000 : ℤ) y) := by
    rw [hminx, hmaxx]
    intro hc
    exact lt_irrefl x hc.1
  have key : adjust_coords initEyeBoundary (some (some x, some y)) =
      { min_x := x, max_x := x, min_y := y, max_y := y, calibrated := false } := by
    rw [adjust_coords_some]
    rw [if_neg hxy]
    show (if max (0 : ℤ) x > min (1000000 : ℤ) x ∧ max (0 : ℤ) y > min (1000000 : ℤ) y
      then ({ min_x := min (1000000 : ℤ) x, max_x := max (0 : ℤ) x,
              min_y := min (1000000 : ℤ) y, max_y := max (0 : ℤ) y,
              calibrated := true } : EyeBoundary)
      else { min_x := min (1000000 : ℤ) x, max_x := max (0 : ℤ) x,
             min_y := min (1000000 : ℤ) y, max_y := max (0 : ℤ) y,
             calibrated := false }) = _
    rw [if_neg hcond, hminx, hmaxx, hminy, hmaxy]
  rw [key]
  exact ⟨rfl, rfl, rfl⟩

/-- Witness for C9 at the concrete first observation `(100, 200)`. -/
theorem first_observation_degenerate_witness :
    (0 : ℤ) ≤ 100 ∧ (100 : ℤ) ≤ 1000000 ∧ (0 : ℤ) ≤ 200 ∧ (200 : ℤ) ≤ 1000000 ∧
    ¬ ((100 : ℤ) = 0 ∧ (200 : ℤ) = 0) ∧
    ((adjust_coords initEyeBoundary (some (some 100, some 200))).min_x =
       (adjust_coords initEyeBoundary (some (some 100, some 200))).max_x ∧
     (adjust_coords initEyeBoundary (some (some 100, some 200))).min_y =
       (adjust_coords initEyeBoundary (some (some 100, some 200))).max_y ∧
     (adjust_coords initEyeBoundary (some (some 100, some 200))).calibrated = false) :=
  ⟨by norm_num, by norm_num, by norm_num, by norm_num, by norm_num,
   first_observation_degenerate 100 200 (by norm_num) (by norm_num) (by norm_num)
     (by norm_num) (by norm_num)⟩

lemma adjust_box_mono (eb : EyeBoundary) (c : Coords) :
    (adjust_coords eb c).min_x ≤ eb.min_x ∧ (adjust_coords eb c).min_y ≤ eb.min_y ∧
    eb.max_x ≤ (adjust_coords eb c).max_x ∧ eb.max_y ≤ (adjust_coords eb c).max_y := by
  rcases c with _ | ⟨ox, oy⟩
  · exact ⟨le_refl _, le_refl _, le_refl _, le_refl _⟩
  rcases ox with _ | x
  · exact ⟨le_refl _, le_refl _, le_refl _, le_refl _⟩
  rcases oy with _ | y
  · exact ⟨le_refl _, le_refl _, le_refl _, le_refl _⟩
  rw [adjust_coords_some]
  split
  · exact ⟨le_refl _, le_refl _, le_refl _, le_refl _⟩
  split
  · exact ⟨min_le_left _ _, min_le_left _ _, le_max_left _ _, le_max_left _ _⟩
  · exact ⟨min_le_left _ _, min_le_left _ _, le_max_left _ _, le_max_left _ _⟩

lemma adjust_calibrated_mono {eb : EyeBoundary} (h : eb.calibrated = true)
    (c : Coords) : (adjust_coords eb c).calibrated = true := by
  rcases c with _ | ⟨ox, oy⟩
  · exact h
  rcases ox with _ | x
  · exact h
  rcases oy with _ | y
  · exact h
  rw [adjust_coords_some]
  split
  · exact h
  split
  · rfl
  · exact h

lemma foldl_calibrated_mono {eb : EyeBoundary} (h : eb.calibrated = true)
    (cs : List Coords) : (cs.foldl adjust_coords eb).calibrated = true := by
  induction cs generalizing eb with
  | nil => exact h
  | cons c cs ih => exact ih (adjust_calibrated_mono h c)

/-- Claim C10: `adjust_coords` never raises a minimum, never lowers a maximum,
and never clears `calibrated`; once calibrated, a boundary stays calibrated
under any further sequence of `adjust_coords` calls (`check_coords` is a pure
read in the source and does not touch the state), and `reset` returns the
boundary to the uncalibrated sentinel state. -/
theorem boundary_monotone (eb : EyeBoundary) (c : Coords) (cs : List Coords) :
    (adjust_coords eb c).min_x ≤ eb.min_x ∧
    (adjust_coords eb c).min_y ≤ eb.min_y ∧
    eb.max_x ≤ (adjust_coords eb c).max_x ∧
    eb.max_y ≤ (adjust_coords eb c).max_y ∧
    (eb.calibrated = true → (adjust_coords eb c).calibrated = true) ∧
    (eb.calibrated = true → (cs.foldl adjust_coords eb).calibrated = true) ∧
    eb.reset = initEyeBoundary ∧
    initEyeBoundary.calibrated = false := by
  obtain ⟨h1, h2, h3, h4⟩ := adjust_box_mono eb c
  exact ⟨h1, h2, h3, h4, fun h => adjust_calibrated_mono h c,
    fun h => foldl_calibrated_mono h cs, rfl, rfl⟩

/-- Witness for C10 at a concrete calibrated boundary. -/
theorem boundary_monotone_witness :
    (⟨100, 200, 100, 200, true⟩ : EyeBoundary).calibrated = true ∧
    ((adjust_coords ⟨100, 200, 100, 200, true⟩ (some (some 50, some 50))).calibrated
       = true ∧
     (([none] : List Coords).foldl adjust_coords
        ⟨100, 200, 100, 200, true⟩).calibrated = true) := by
  have h := boundary_monotone ⟨100, 200, 100, 200, true⟩
    (some (some 50, some 50)) [none]
  exact ⟨rfl, h.2.2.2.2.1 rfl, h.2.2.2.2.2.1 rfl⟩

/-- Python's `int()` truncation toward zero on a real timestamp. -/
def pyInt (q : ℚ) : ℤ := if 0 ≤ q then ⌊q⌋ else ⌈q⌉

/-- A row persisted by `save_session` in `app.py`: integer epoch seconds,
focus percentage, and the serialized timeline. -/
structure SessionRecord where
  start_time : ℤ
  end_time : ℤ
  focus_percentage : ℚ
  timeline : List Bool
deriving DecidableEq

/-- `MainWindow.finish_session` from `app.py`: computes the focus percentage,
persists the record only when `int(end_time - start_time) > 0`, and always
produces the statistics (modelled by the second component, the percentage that
is shown).  `save_session` stores `int(start_time)` and `int(end_time)`. -/
def finish_session (start_time end_time : ℚ) (timeline : List Bool) :
    Option SessionRecord × ℚ :=
  let elapsed_secs := pyInt (end_time - start_time)
  let total_samples := timeline.length
  let focus_percentage : ℚ :=
    if total_samples > 0 then ((timeline.count true : ℚ) / (total_samples : ℚ)) * 100
    else 0
  let saved : Option SessionRecord :=
    if elapsed_secs > 0 then
      some { start_time := pyInt start_time, end_time := pyInt end_time,
             focus_percentage := focus_percentage, timeline := timeline }
    else none
  (saved, focus_percentage)

/-- Running `finish_session` against a database modelled as the list of stored
rows: the record is appended exactly when `finish_session` persists it. -/
def run_finish (store : List SessionRecord) (s e : ℚ) (t : List Bool) :
    List SessionRecord :=
  match (finish_session s e t).1 with
  | some rec => store ++ [rec]
  | none => store

/-- Claim C4: the focus percentage computed by `finish_session` is
`100 * (number of true samples) / (number of samples)`, and `0` for an empty
timeline — both for the displayed statistics and for the persisted record. -/
theorem focus_percentage_spec (s e : ℚ) (t : List Bool) :
    (finish_session s e t).2 =
      (if t.length = 0 then 0 else 100 * (t.count true : ℚ) / (t.length : ℚ)) ∧
    (finish_session s e t).1 =
      (if 0 < pyInt (e - s) then
        some { start_time := pyInt s, end_time := pyInt e,
               focus_percentage :=
                 (if t.length = 0 then 0
                  else 100 * (t.count true : ℚ) / (t.length : ℚ)),
               timeline := t }
      else none) := by
  have hpct : (finish_session s e t).2 =
      if 0 < t.length then ((t.count true : ℚ) / (t.length : ℚ)) * 100 else 0 := rfl
  have hclaim : (finish_session s e t).2 =
      if t.length = 0 then 0 else 100 * (t.count true : ℚ) / (t.length : ℚ) := by
    rw [hpct]
    by_cases h : t.length = 0
    · rw [if_neg (by omega : ¬ 0 < t.length), if_pos h]
    · rw [if_pos (Nat.pos_of_ne_zero h), if_neg h]
      ring
  have h1 : (finish_session s e t).1 =
      if 0 < pyInt (e - s) then
        some { start_time := pyInt s, end_time := pyInt e,
               focus_percentage := (finish_session s e t).2, timeline := t }
      else none := rfl
  refine ⟨hclaim, ?_⟩
  rw [h1, hclaim]

lemma pyInt_pos_one_le {q : ℚ} (h : 0 < pyInt q) : 1 ≤ q := by
  unfold pyInt at h
  split at h
  · exact_mod_cast Int.le_floor.mp h
  · exfalso
    rename_i hq
    have hq' : q ≤ 0 := le_of_lt (lt_of_not_ge hq)
    have : ⌈q⌉ ≤ 0 := Int.ceil_le.mpr (by exact_mod_cast hq')
    omega

lemma pyInt_nonpos {q : ℚ} (h : q ≤ 0) : pyInt q ≤ 0 := by
  unfold pyInt
  split
  · exact Int.floor_nonpos h
  · exact Int.ceil_le.mpr (by exact_mod_cast h)

/-- Claim C5: a session whose duration satisfies `end - start <= 0` is
discarded, never persisted; and on a store all of whose rows have positive
duration, any store produced by `finish_session` still has only
positive-duration rows (the persisted row stores truncated timestamps, whose
difference remains positive). -/
theorem session_persistence_guard (store : List SessionRecord) (s e : ℚ)
    (t : List Bool) (hs : 0 ≤ s)
    (hstore : ∀ rec ∈ store, 0 < rec.end_time - rec.start_time) :
    (e - s ≤ 0 → (finish_session s e t).1 = none ∧ run_finish store s e t = store) ∧
    (∀ rec ∈ run_finish store s e t, 0 < rec.end_time - rec.start_time) := by
  have hsave : (finish_session s e t).1 =
      if 0 < pyInt (e - s) then
        some { start_time := pyInt s, end_time := pyInt e,
               focus_percentage := (finish_session s e t).2, timeline := t }
      else none := rfl
  constructor
  · intro hle
    have hneg : ¬ 0 < pyInt (e - s) := by
      have := pyInt_nonpos hle
      omega
    have hnone : (finish_session s e t).1 = none := by
      rw [hsave, if_neg hneg]
    refine ⟨hnone, ?_⟩
    unfold run_finish
    rw [hnone]
  · intro rec hrec
    by_cases hpos : 0 < pyInt (e - s)
    · have hsome : (finish_session s e t).1 =
          some { start_time := pyInt s, end_time := pyInt e,
                 focus_percentage := (finish_session s e t).2, timeline := t } := by
        rw [hsave, if_pos hpos]
      unfold run_finish at hrec
      rw [hsome] at hrec
      simp only [List.mem_append, List.mem_singleton] at hrec
      rcases hrec with h | h
      · exact hstore rec h
      · subst h
        show 0 < pyInt e - pyInt s
        have h1 : (1 : ℚ) ≤ e - s := pyInt_pos_one_le hpos
        have he : (0 : ℚ) ≤ e := by linarith
        have hfs : pyInt s = ⌊s⌋ := if_pos hs
        have hfe : pyInt e = ⌊e⌋ := if_pos he
        rw [hfs, hfe]
        have hstep : ⌊s⌋ + 1 ≤ ⌊e⌋ := by
          have h2 : ⌊s + 1⌋ ≤ ⌊e⌋ := Int.floor_le_floor (by linarith)
          rwa [Int.floor_add_one] at h2
        omega
    · unfold run_finish at hrec
      rw [hsave, if_neg hpos] at hrec
      exact hstore rec hrec

/-- Witness for C5: a zero-duration session is not persisted, and a store
holding one positive-duration row is unchanged. -/
theorem session_persistence_guard_witness :
    (finish_session 0 0 []).1 = none ∧
      run_finish [⟨0, 5, 100, [true]⟩] 0 0 [] = [⟨0, 5, 100, [true]⟩] :=
  (session_persistence_guard [⟨0, 5, 100, [true]⟩] 0 0 [] (le_refl 0)
    (by decide)).1 (by norm_num)

/-- The alert bookkeeping of `MainWindow` in `app.py`:
`consecutive_unfocused_start` and `alert_sounded`. -/
structure AlertState where
  consecutive_unfocused_start : Option ℚ
  alert_sounded : Bool
deriving DecidableEq

/-- The alert state at session start (and after every focused frame). -/
def initAlertState : AlertState :=
  { consecutive_unfocused_start := none, alert_sounded := false }

/-- `ALERT_THRESHOLD_SECONDS` from `app.py`. -/
def ALERT_THRESHOLD_SECONDS : ℚ := 5

/-- The streak-tracking block of the session branch of
`MainWindow.tracking_loop` in `app.py`, for one frame.  Returns the new state,
the `is_alerting` flag, and whether the one-shot alert (beep plus
draw-attention request) was signaled on this frame. -/
def alert_update (st : AlertState) (is_focused : Bool) (current_time : ℚ) :
    AlertState × Bool × Bool :=
  if is_focused = false then
    match st.consecutive_unfocused_start with
    | none =>
      ({ consecutive_unfocused_start := some current_time, alert_sounded := false },
       false, false)
    | some t0 =>
      if current_time - t0 ≥ ALERT_THRESHOLD_SECONDS then
        if st.alert_sounded = false then
          ({ st with alert_sounded := true }, true, true)
        else (st, true, false)
      else (st, false, false)
  else
    ({ consecutive_unfocused_start := none, alert_sounded := false }, false, false)

/-- Iterating `alert_update` over a sequence of `(is_focused, time)` frames,
counting how many frames signaled the one-shot alert. -/
def run_alert (st : AlertState) : List (Bool × ℚ) → AlertState × ℕ
  | [] => (st, 0)
  | (f, tm) :: rest =>
    ((run_alert (alert_update st f tm).1 rest).1,
     (if (alert_update st f tm).2.2 then 1 else 0) +
       (run_alert (alert_update st f tm).1 rest).2)

lemma alert_update_sounded (t0 tm : ℚ) :
    alert_update ⟨some t0, true⟩ false tm =
      (⟨some t0, true⟩,
       (if ALERT_THRESHOLD_SECONDS ≤ tm - t0 then true else false), false) := by
  show (if ALERT_THRESHOLD_SECONDS ≤ tm - t0 then
          ((⟨some t0, true⟩ : AlertState), true, false)
        else ((⟨some t0, true⟩ : AlertState), false, false)) = _
  split <;> rfl

lemma alert_update_unsounded (t0 tm : ℚ) :
    alert_update ⟨some t0, false⟩ false tm =
      if ALERT_THRESHOLD_SECONDS ≤ tm - t0 then
        ((⟨some t0, true⟩ : AlertState), true, true)
      else ((⟨some t0, false⟩ : AlertState), false, false) := by
  show (if ALERT_THRESHOLD_SECONDS ≤ tm - t0 then
          ((⟨some t0, true⟩ : AlertState), true, true)
        else ((⟨some t0, false⟩ : AlertState), false, false)) = _
  split <;> rfl

lemma alert_update_fresh (tm : ℚ) :
    alert_update initAlertState false tm = (⟨some tm, false⟩, false, false) := rfl

lemma alert_update_focused (st : AlertState) (tm : ℚ) :
    alert_update st true tm = (initAlertState, false, false) := rfl

lemma run_alert_after_sound (t0 : ℚ) (ts : List ℚ) :
    (run_alert ⟨some t0, true⟩ (ts.map fun tm => ((false : Bool), tm))).2 = 0 := by
  induction ts with
  | nil => rfl
  | cons tm ts ih =>
    show (if (alert_update ⟨some t0, true⟩ false tm).2.2 then 1 else 0) +
        (run_alert (alert_update ⟨some t0, true⟩ false tm).1
          (ts.map fun tm => ((false : Bool), tm))).2 = 0
    rw [alert_update_sounded]
    simpa using ih

lemma run_alert_streak (t0 : ℚ) (ts : List ℚ) :
    (run_alert ⟨some t0, false⟩ (ts.map fun tm => ((false : Bool), tm))).2 =
      if ts.any (fun tm => decide (ALERT_THRESHOLD_SECONDS ≤ tm - t0)) then 1
      else 0 := by
  induction ts with
  | nil => rfl
  | cons tm ts ih =>
    show (if (alert_update ⟨some t0, false⟩ false tm).2.2 then 1 else 0) +
        (run_alert (alert_update ⟨some t0, false⟩ false tm).1
          (ts.map fun tm => ((false : Bool), tm))).2 = _
    rw [alert_update_unsounded]
    by_cases h : ALERT_THRESHOLD_SECONDS ≤ tm - t0
    · rw [if_pos h]
      simp [run_alert_after_sound, List.any_cons, h]
    · rw [if_neg h]
      simp [ih, List.any_cons, h]

/-- Claim C6: over a maximal unfocused streak observed at times
`t0 :: rest` starting from the fresh alert state, the one-shot alert (beep and
draw-attention request) is signaled exactly once if some frame of the streak
lies at least `ALERT_THRESHOLD_SECONDS` after the streak start, and never
otherwise — no matter how long the streak continues; and any focused frame
resets the bookkeeping to the fresh state, so a later streak can alert
again. -/
theorem alert_once_per_streak (t0 : ℚ) (rest : List ℚ) (st : AlertState)
    (tm : ℚ) :
    (run_alert initAlertState
        ((t0 :: rest).map fun s => ((false : Bool), s))).2 =
      (if rest.any (fun s => decide (ALERT_THRESHOLD_SECONDS ≤ s - t0)) then 1
       else 0) ∧
    alert_update st true tm = (initAlertState, false, false) := by
  constructor
  · show (if (alert_update initAlertState false t0).2.2 then 1 else 0) +
        (run_alert (alert_update initAlertState false t0).1
          (rest.map fun s => ((false : Bool), s))).2 = _
    rw [alert_update_fresh]
    simpa using run_alert_streak t0 rest
  · rfl

/-- Weekday index of an epoch timestamp, 0 = Monday .. 6 = Sunday, modelling
Python's `datetime.fromtimestamp(ts).weekday()` with local time taken as UTC
(no DST): the epoch day 1970-01-01 was a Thursday (index 3). -/
def weekday (ts : ℤ) : ℤ := (ts / 86400 + 3) % 7

/-- Midnight of the Monday of the week containing `ts`, modelling the
`start_of_week_ts` computation of `get_weekly_stats` in `app.py` under the
same calendar model as `weekday`. -/
def week_start (ts : ℤ) : ℤ := (ts / 86400 - weekday ts) * 86400

/-- `daily_totals[day_index] += duration` from `app.py`. -/
def day_bucket_add : List ℤ → ℕ → ℤ → List ℤ
  | [], _, _ => []
  | x :: xs, 0, d => (x + d) :: xs
  | x :: xs, Nat.succ n, d => x :: day_bucket_add xs n d

/-- Body of the row loop of `get_weekly_stats` in `app.py`: re-check that the
session start lies in the 7-day window, then add its duration to the weekday
bucket if the duration is positive. -/
def weekly_step (ws : ℤ) (totals : List ℤ) (r : ℤ × ℤ) : List ℤ :=
  if ws ≤ r.1 ∧ r.1 < ws + 7 * 86400 then
    if 0 < r.2 - r.1 then day_bucket_add totals (weekday r.1).toNat (r.2 - r.1)
    else totals
  else totals

/-- `get_weekly_stats` from `app.py`: the SQL query pre-filters rows to
`[week_start, week_start + 8 days)`, then the Python loop accumulates into
seven zero-initialised buckets. -/
def get_weekly_stats (refTs : ℤ) (sessions : List (ℤ × ℤ)) : List ℤ :=
  (sessions.filter fun r =>
      decide (week_start refTs ≤ r.1) &&
      decide (r.1 < week_start refTs + 7 * 86400 + 86400)).foldl
    (weekly_step (week_start refTs)) (List.replicate 7 0)

/-- Modelled from the spec's words (claim C7), for comparison with
`get_weekly_stats`: bucket `i` is the sum of `end - start` over the sessions
whose start falls within the Monday-aligned window and whose start's weekday
index is `i` — with no condition on the sign of the duration. -/
def claim_weekly_totals (refTs : ℤ) (sessions : List (ℤ × ℤ)) : List ℤ :=
  (List.range 7).map fun (i : ℕ) =>
    ((sessions.filter fun r =>
        decide (week_start refTs ≤ r.1) &&
        decide (r.1 < week_start refTs + 7 * 86400) &&
        (weekday r.1 == (i : ℤ))).map fun r => r.2 - r.1).sum

/-- The claim amended as the code forces: only sessions with positive duration
contribute to their weekday bucket. -/
def amended_weekly_totals (refTs : ℤ) (sessions : List (ℤ × ℤ)) : List ℤ :=
  (List.range 7).map fun (i : ℕ) =>
    ((sessions.filter fun r =>
        decide (week_start refTs ≤ r.1) &&
        decide (r.1 < week_start refTs + 7 * 86400) &&
        (weekday r.1 == (i : ℤ)) &&
        decide (0 < r.2 - r.1)).map fun r => r.2 - r.1).sum

lemma weekday_nonneg (ts : ℤ) : 0 ≤ weekday ts :=
  Int.emod_nonneg _ (by norm_num)

lemma weekday_lt_seven (ts : ℤ) : weekday ts < 7 :=
  Int.emod_lt_of_pos _ (by norm_num)

lemma day_bucket_add_length (l : List ℤ) (i : ℕ) (d : ℤ) :
    (day_bucket_add l i d).length = l.length := by
  induction l generalizing i with
  | nil => rfl
  | cons x xs ih =>
    cases i with
    | zero => rfl
    | succ n => simpa [day_bucket_add] using ih n

lemma day_bucket_add_getD (l : List ℤ) (i : ℕ) (d : ℤ) (j : ℕ) :
    (day_bucket_add l i d).getD j 0 =
      l.getD j 0 + if i = j ∧ j < l.length then d else 0 := by
  induction l generalizing i j with
  | nil => simp [day_bucket_add]
  | cons x xs ih =>
    cases i with
    | zero =>
      cases j with
      | zero => simp [day_bucket_add]
      | succ k => simp [day_bucket_add, List.getD]
    | succ n =>
      cases j with
      | zero => simp [day_bucket_add, List.getD]
      | succ k =>
        show (day_bucket_add xs n d).getD k 0 = xs.getD k 0 + _
        rw [ih n k]
        congr 1
        rw [if_congr (by omega : (n = k ∧ k < xs.length) ↔
          (n + 1 = k + 1 ∧ k + 1 < xs.length + 1)) rfl rfl]
        simp

lemma weekly_step_length (ws : ℤ) (totals : List ℤ) (r : ℤ × ℤ) :
    (weekly_step ws totals r).length = totals.length := by
  unfold weekly_step
  split
  · split
    · exact day_bucket_add_length _ _ _
    · rfl
  · rfl

lemma weekly_fold_length (ws : ℤ) (rows : List (ℤ × ℤ)) (totals : List ℤ) :
    (rows.foldl (weekly_step ws) totals).length = totals.length := by
  induction rows generalizing totals with
  | nil => rfl
  | cons r rows ih => rw [List.foldl_cons, ih, weekly_step_length]

lemma weekly_fold_getD (ws : ℤ) (rows : List (ℤ × ℤ)) (totals : List ℤ)
    (hlen : totals.length = 7) (j : ℕ) :
    (rows.foldl (weekly_step ws) totals).getD j 0 =
      totals.getD j 0 +
      ((rows.filter fun r =>
          decide (ws ≤ r.1) && decide (r.1 < ws + 7 * 86400) &&
          (weekday r.1 == (j : ℤ)) && decide (0 < r.2 - r.1)).map
        fun r => r.2 - r.1).sum := by
  induction rows generalizing totals with
  | nil => simp
  | cons r rows ih =>
    rw [List.foldl_cons, ih (weekly_step ws totals r)
      (by rw [weekly_step_length, hlen]), List.filter_cons]
    by_cases hwin : ws ≤ r.1 ∧ r.1 < ws + 7 * 86400
    · by_cases hdur : 0 < r.2 - r.1
      · have hstep : weekly_step ws totals r =
            day_bucket_add totals (weekday r.1).toNat (r.2 - r.1) := by
          unfold weekly_step
          rw [if_pos hwin, if_pos hdur]
        rw [hstep, day_bucket_add_getD]
        by_cases hday : weekday r.1 = (j : ℤ)
        · have hjlt : j < 7 := by
            have h7 := weekday_lt_seven r.1
            omega
          have htn : (weekday r.1).toNat = j := by
            have h0 := weekday_nonneg r.1
            omega
          rw [if_pos ⟨htn, by omega⟩]
          rw [if_pos (by
            simp only [Bool.and_eq_true, decide_eq_true_eq, beq_iff_eq]
            exact ⟨⟨⟨hwin.1, by omega⟩, hday⟩, hdur⟩)]
          simp only [List.map_cons, List.sum_cons]
          ring
        · rw [if_neg (by
            intro hc
            apply hday
            have h0 := weekday_nonneg r.1
            omega)]
          rw [if_neg (by simp [hday])]
          ring
      · have hstep : weekly_step ws totals r = totals := by
          unfold weekly_step
          rw [if_pos hwin, if_neg hdur]
        rw [hstep, if_neg (by simp [hdur])]
    · have hstep : weekly_step ws totals r = totals := by
        unfold weekly_step
        rw [if_neg hwin]
      rw [hstep, if_neg (by
        simp only [Bool.and_eq_true, decide_eq_true_eq, beq_iff_eq]
        rintro ⟨⟨⟨h1, h2⟩, h3⟩, h4⟩
        exact hwin ⟨h1, by omega⟩)]

/-- Counterexample for claim C7 as stated: a stored session with negative
duration starting on the window's Monday (epoch 345600, Monday 1970-01-05
00:00:00) is counted by the claim's sum but skipped by the code, which only
adds positive durations. -/
theorem weekly_stats_counterexample :
    get_weekly_stats 345600 [(345600, 345590)] ≠
      claim_weekly_totals 345600 [(345600, 345590)] := by decide

/-- Claim C7 amended: `get_weekly_stats` returns exactly 7 totals indexed
0 = Monday .. 6 = Sunday, bucket `i` summing `end - start` over the sessions
with positive duration whose start falls within the Monday-aligned 7-day
window and has weekday index `i`; a session starting exactly at the window's
Monday 00:00:00 counts in bucket 0, one starting the window's Sunday and
ending exactly at the following Monday 00:00:00 counts in bucket 6, and one
ending one second before the window starts contributes nothing. -/
theorem weekly_stats_amended (refTs : ℤ) (sessions : List (ℤ × ℤ)) :
    get_weekly_stats refTs sessions = amended_weekly_totals refTs sessions ∧
    (get_weekly_stats refTs sessions).length = 7 ∧
    get_weekly_stats 345600 [(345600, 347400)] = [1800, 0, 0, 0, 0, 0, 0] ∧
    get_weekly_stats 345600 [(946800, 950400)] = [0, 0, 0, 0, 0, 0, 3600] ∧
    get_weekly_stats 345600 [(342000, 345599)] = [0, 0, 0, 0, 0, 0, 0] := by
  have hlenG : (get_weekly_stats refTs sessions).length = 7 := by
    unfold get_weekly_stats
    rw [weekly_fold_length]
    rfl
  have hlenA : (amended_weekly_totals refTs sessions).length = 7 := by
    unfold amended_weekly_totals
    rw [List.length_map, List.length_range]
  refine ⟨?_, hlenG, by decide, by decide, by decide⟩
  apply List.ext_getElem (by rw [hlenG, hlenA])
  intro i hi1 hi2
  rw [← List.getD_eq_getElem (get_weekly_stats refTs sessions) 0 hi1,
      ← List.getD_eq_getElem (amended_weekly_totals refTs sessions) 0 hi2]
  have hi7 : i < 7 := by
    rw [hlenG] at hi1
    exact hi1
  have hL : (get_weekly_stats refTs sessions).getD i 0 =
      ((sessions.filter fun r =>
          (decide (week_start refTs ≤ r.1) &&
           decide (r.1 < week_start refTs + 7 * 86400) &&
           (weekday r.1 == (i : ℤ)) && decide (0 < r.2 - r.1)) &&
          (decide (week_start refTs ≤ r.1) &&
           decide (r.1 < week_start refTs + 7 * 86400 + 86400))).map
        fun r => r.2 - r.1).sum := by
    unfold get_weekly_stats
    rw [weekly_fold_getD _ _ _ (by simp) i, List.filter_filter]
    have hz : (List.replicate 7 (0 : ℤ)).getD i 0 = 0 := by
      rcases i with _|_|_|_|_|_|_|i <;> rfl
    rw [hz, zero_add]
  have hR : (amended_weekly_totals refTs sessions).getD i 0 =
      ((sessions.filter fun r =>
          decide (week_start refTs ≤ r.1) &&
          decide (r.1 < week_start refTs + 7 * 86400) &&
          (weekday r.1 == (i : ℤ)) && decide (0 < r.2 - r.1)).map
        fun r => r.2 - r.1).sum := by
    interval_cases i <;> rfl
  rw [hL, hR]
  have hfilters : (sessions.filter fun r =>
      (decide (week_start refTs ≤ r.1) &&
       decide (r.1 < week_start refTs + 7 * 86400) &&
       (weekday r.1 == (i : ℤ)) && decide (0 < r.2 - r.1)) &&
      (decide (week_start refTs ≤ r.1) &&
       decide (r.1 < week_start refTs + 7 * 86400 + 86400))) =
      sessions.filter fun r =>
        decide (week_start refTs ≤ r.1) &&
        decide (r.1 < week_start refTs + 7 * 86400) &&
        (weekday r.1 == (i : ℤ)) && decide (0 < r.2 - r.1) := by
    apply List.filter_congr
    intro r _
    cases hX : (decide (week_start refTs ≤ r.1) &&
        decide (r.1 < week_start refTs + 7 * 86400) &&
        (weekday r.1 == (i : ℤ)) && decide (0 < r.2 - r.1)) with
    | false => rw [Bool.false_and]
    | true =>
      rw [Bool.true_and]
      simp only [Bool.and_eq_true, decide_eq_true_eq, beq_iff_eq] at hX
      simp only [Bool.and_eq_true, decide_eq_true_eq]
      exact ⟨hX.1.1.1, by omega⟩
  rw [hfilters]

/-- Outcome of decoding the `focus_data` TEXT column with `json.loads` in
`app.py`: a JSON array of booleans, some other valid JSON value, or invalid
JSON (which raises `json.JSONDecodeError`, caught by the loader). -/
inductive FocusDataParse where
  | jsonList (timeline : List Bool)
  | jsonNonList
  | malformed
deriving DecidableEq

/-- A stored `sessions` row as fetched by the queries in `app.py`, with the
`focus_data` column represented by its decode outcome. -/
structure Row where
  session_id : ℤ
  start_time : ℤ
  end_time : ℤ
  focus_percentage : ℚ
  focus_data : FocusDataParse
deriving DecidableEq

/-- A loaded session dictionary as built by `load_sessions` and
`get_session_by_id` in `app.py`. -/
structure LoadedSession where
  session_id : ℤ
  start_time : ℤ
  end_time : ℤ
  focus_percentage : ℚ
  timeline : List Bool
  duration_secs : ℤ
deriving DecidableEq

/-- The per-row `try/except` block of `load_sessions` in `app.py`: a decode
failure or a non-list value degrades to the empty timeline. -/
def parse_timeline : FocusDataParse → List Bool
  | .jsonList t => t
  | .jsonNonList => []
  | .malformed => []

/-- One row's conversion in `load_sessions` / `get_session_by_id` of `app.py`:
all columns are copied, the timeline comes from `parse_timeline`, and
`duration_secs` is `end_time - start_time`.  The conversion is total: the only
exception the source can meet here is the decode error, which it catches. -/
def loadRow (r : Row) : LoadedSession :=
  { session_id := r.session_id, start_time := r.start_time,
    end_time := r.end_time, focus_percentage := r.focus_percentage,
    timeline := parse_timeline r.focus_data,
    duration_secs := r.end_time - r.start_time }

/-- `load_sessions` from `app.py`, over the fetched rows (most recent
first). -/
def load_sessions (rows : List Row) : List LoadedSession := rows.map loadRow

/-- `get_session_by_id` from `app.py`: the row with the given id, if any,
converted like `load_sessions` converts each row. -/
def get_session_by_id (rows : List Row) (id : ℤ) : Option LoadedSession :=
  (rows.find? fun r => r.session_id == id).map loadRow

/-- Claim C8: a row whose `focus_data` is not a valid JSON list (invalid JSON,
or valid JSON that is not a list) loads with an empty timeline while its
`session_id`, `start_time`, `end_time` and `focus_percentage` stay intact;
rows with a valid JSON list load with that timeline; every fetched row yields
exactly one loaded session, and `get_session_by_id` converts its row the same
way. -/
theorem malformed_timeline_loads_empty (rows : List Row) (idq : ℤ) :
    (∀ (id s e : ℤ) (p : ℚ),
        loadRow ⟨id, s, e, p, .malformed⟩ = ⟨id, s, e, p, [], e - s⟩ ∧
        loadRow ⟨id, s, e, p, .jsonNonList⟩ = ⟨id, s, e, p, [], e - s⟩ ∧
        ∀ t : List Bool,
          loadRow ⟨id, s, e, p, .jsonList t⟩ = ⟨id, s, e, p, t, e - s⟩) ∧
    load_sessions rows = rows.map loadRow ∧
    (load_sessions rows).length = rows.length ∧
    get_session_by_id rows idq =
      (rows.find? fun r => r.session_id == idq).map loadRow :=
  ⟨fun id s e p => ⟨rfl, rfl, fun t => rfl⟩, rfl,
   List.length_map rows loadRow, rfl⟩
